import Mathlib

/-
Verification of the win-backup-checker concurrent validation engine.

The definitions below are a shallow embedding of the Go package
`winbackupchecker` (files `config.go` and the concurrent scanner that defines
`ScanFileBackupDir`, `discoverBackupSets`, `validateBackupSets`,
`validateFileBackupSet`, `validateBackupStructure`,
`validateBackupCompleteness`, `findMissingBackupFiles`,
`validateBackupContent`, `validateBackupAge`, `validateZipFile`,
`validateCatalogFile`, `validateMediaID`, `countPassedChecks`).

Modelling conventions:
- Go `int`/`int64`/`time.Duration` are modelled as `Int`; `time.Time` is
  modelled as an `Int` (nanoseconds; the zero `time.Time` is `0`, and
  `t.After(u)` is `u < t`).
- All filesystem access and the clock are abstracted into an `Env` record of
  oracles, one field per Go helper that performs I/O.  Paths use `/` as the
  separator.
- Go's `fmt` rendering of durations is abstracted as `Env.showDuration`
  (pure formatting, irrelevant to every claim).
- `context.Context` cancellation inside content validation is modelled by
  `cancelAt : Option Nat`: the check before processing file number `k`
  observes "done" exactly when `cancelAt = some c` with `c ≤ k` (cooperative
  cancellation is monotone, so a single threshold models it exactly).
-/

namespace WinBackupChecker

/-- Severity levels of validation issues, mirroring the Go constants
`SeverityInfo = 0`, `SeverityWarning = 1`, `SeverityError = 2`,
`SeverityCritical = 3` (`ValidationSeverity` in `config.go`). -/
inductive Severity where
  | info
  | warning
  | error
  | critical
deriving Repr, DecidableEq, BEq, Inhabited

/-- Numeric value of each severity constant (the Go `iota` ordering). -/
def Severity.toInt : Severity → Int
  | .info => 0
  | .warning => 1
  | .error => 2
  | .critical => 3

/-- Mirrors Go `ValidationIssue` (severity, message, path, suggestion,
timestamp). -/
structure ValidationIssue where
  severity : Severity
  message : String
  path : String
  suggestion : String
  checkedAt : String
deriving Repr, DecidableEq, Inhabited

/-- Mirrors Go `ValidationStats`. -/
structure ValidationStats where
  totalFiles : Int
  validatedFiles : Int
  corruptFiles : Int
  totalSize : Int
  validationTime : String
  catalogFiles : Int
  backupFiles : Int
  oldestBackupTime : Option Int
  newestBackupTime : Option Int
  structuralChecks : Int
  contentChecks : Int
deriving Repr, DecidableEq, Inhabited

/-- Mirrors Go `BackupReport`. -/
structure BackupReport where
  backupDir : String
  valid : Bool
  issues : List ValidationIssue
  checkedAt : String
  validationStats : ValidationStats
deriving Repr, DecidableEq, Inhabited

/-- Mirrors Go `ScanReport`. -/
structure ScanReport where
  root : String
  reports : List BackupReport
deriving Repr, DecidableEq, Inhabited

/-- Mirrors Go `BackupSetInfo` (the backup-set descriptor built by
discovery). -/
structure BackupSetInfo where
  path : String
  size : Int
  fileCount : Int
  modTime : Int
  catalogFiles : List String
  backupFiles : List String
deriving Repr, DecidableEq, Inhabited

/-- Result of Go `io.ReadFull` on a sampled zip entry: success, a clean
end-of-data condition (`io.EOF` / `io.ErrUnexpectedEOF`, both accepted by
`validateZipFile`), or any other read error. -/
inductive ReadResult where
  | ok
  | eofEnd
  | unexpectedEof
  | readFail (msg : String)
deriving Repr, DecidableEq, Inhabited

/-- One entry of an opened zip archive, as observed by `validateZipFile`:
its name, uncompressed size, whether `file.Open` fails, and the outcome of
sampling its first bytes. -/
structure ZipEntryInfo where
  name : String
  uncompressedSize : Nat
  openErr : Option String
  readRes : ReadResult
deriving Repr, DecidableEq, Inhabited

/-- One entry returned by `os.ReadDir`. -/
structure DirEntry where
  name : String
  isDir : Bool
deriving Repr, DecidableEq, Inhabited

/-- One callback invocation of `filepath.Walk` inside
`gatherBackupSetInfo`: the visited path, its metadata, and whether the walk
reported an error for it (in which case the callback skips it). -/
structure WalkItem where
  path : String
  size : Int
  modTime : Int
  isDir : Bool
  errFlag : Bool
deriving Repr, DecidableEq, Inhabited

/-- Oracle for every I/O primitive and clock read used by the engine.  Each
field corresponds to one Go helper: `dirExists`, `fileExists`, `os.Stat`
(returning a size), `os.Open`, `file.Read`, `zip.OpenReader`, `os.ReadDir`,
`filepath.Walk`, `time.Now` (as nanoseconds and as the RFC3339 string used
for `CheckedAt`), duration formatting, and the elapsed-time string recorded
in `ValidationStats.ValidationTime`. -/
structure Env where
  dirExistsF : String → Bool
  fileExistsF : String → Bool
  statF : String → Except String Int
  openF : String → Option String
  readF : String → Option String
  zipOpenF : String → Except String (List ZipEntryInfo)
  readDirF : String → Except String (List DirEntry)
  walkF : String → List WalkItem
  now : Int
  nowStr : String
  showDuration : Int → String
  elapsedStr : String

/-- Mirrors Go `filepath.Join` for the two-argument uses in the engine. -/
def pathJoin (a b : String) : String := a ++ "/" ++ b

/-- Mirrors Go `NewValidationIssue` (which stamps `CheckedAt` with
`NowRFC3339()`). -/
def newValidationIssue (env : Env) (severity : Severity)
    (message path suggestion : String) : ValidationIssue :=
  { severity := severity, message := message, path := path,
    suggestion := suggestion, checkedAt := env.nowStr }

/-- Zero value of `ValidationStats` (Go zero struct). -/
def zeroStats : ValidationStats :=
  { totalFiles := 0, validatedFiles := 0, corruptFiles := 0, totalSize := 0,
    validationTime := "", catalogFiles := 0, backupFiles := 0,
    oldestBackupTime := none, newestBackupTime := none,
    structuralChecks := 0, contentChecks := 0 }

/-- Zero value of `BackupReport` (Go zero struct), the initial content of
every slot of the pre-allocated results slice in `validateBackupSets`. -/
def zeroReport : BackupReport :=
  { backupDir := "", valid := false, issues := [], checkedAt := "",
    validationStats := zeroStats }

/-- Mirrors the validity loop at the end of Go `validateFileBackupSet`:
`valid := true; for issue { if issue.Severity >= SeverityError { valid =
false; break } }`. -/
def validFromIssues : List ValidationIssue → Bool
  | [] => true
  | issue :: rest =>
    if Severity.error.toInt ≤ issue.severity.toInt then false
    else validFromIssues rest

/-- Mirrors Go `countPassedChecks`: count the issues whose severity is in
the given set, subtract from a baseline of 5, floor at 0. -/
def countPassedChecks (issues : List ValidationIssue)
    (severities : List Severity) : Int :=
  let failedChecks : Int :=
    ((issues.countP (fun issue => severities.contains issue.severity) : Nat) : Int)
  max 0 (5 - failedChecks)

/-- Mirrors Go `validateBackupStructure`.  Note that in the source the
"missing Catalogs folder" and "no catalog files found" checks form an
`if`/`else if` chain, while the remaining three checks are separate `if`
statements. -/
def validateBackupStructure (env : Env) (setInfo : BackupSetInfo) :
    List ValidationIssue :=
  let catalogDir := pathJoin setInfo.path "Catalogs"
  let catalogIssues : List ValidationIssue :=
    if !env.dirExistsF catalogDir then
      [newValidationIssue env .error "missing Catalogs folder" catalogDir
        "backup set should contain a Catalogs folder with .wbcat files"]
    else if setInfo.catalogFiles.length = 0 then
      [newValidationIssue env .error "no catalog files found in Catalogs folder"
        catalogDir
        "ensure the backup completed successfully and catalog files exist"]
    else []
  let backupIssues : List ValidationIssue :=
    if setInfo.backupFiles.length = 0 then
      [newValidationIssue env .error "no backup files (.zip) found" setInfo.path
        "backup set should contain .zip files with the actual backup data"]
    else []
  let countIssues : List ValidationIssue :=
    if setInfo.fileCount < 2 then
      [newValidationIssue env .warning
        ("backup set contains only " ++ toString setInfo.fileCount ++ " files")
        setInfo.path
        "typical backup sets should contain multiple files (catalogs + backup files)"]
    else []
  let sizeIssues : List ValidationIssue :=
    if setInfo.size < 1024 then
      [newValidationIssue env .warning
        ("backup set is very small (" ++ toString setInfo.size ++ " bytes)")
        setInfo.path "backup might be incomplete or corrupted"]
    else []
  catalogIssues ++ backupIssues ++ countIssues ++ sizeIssues

/-- Lower-case a string (ASCII, matching `strings.ToLower` on the ASCII
file names relevant here). -/
def sLower (s : String) : String := String.mk (s.data.map Char.toLower)

/-- Helper for `filepathExt`: scan the reversed characters for the final
dot, stopping at a path separator. -/
def revExtScan : List Char → List Char → Option String
  | [], _ => none
  | c :: cs, acc =>
    if c = '.' then some (String.mk ('.' :: acc))
    else if c = '/' then none
    else revExtScan cs (c :: acc)

/-- Mirrors Go `filepath.Ext`: the suffix starting at the final dot in the
final path element, empty if there is none. -/
def filepathExt (s : String) : String := (revExtScan s.data.reverse []).getD ""

/-- Mirrors Go `filepath.Base` (with `/` as separator). -/
def filepathBase (s : String) : String :=
  if s = "" then "."
  else
    let cs := s.data.reverse.dropWhile (· = '/')
    if cs = [] then "/" else String.mk ((cs.takeWhile (· ≠ '/')).reverse)

/-- Mirrors Go `filepath.Dir` (with `/` as separator) for the cleaned paths
the engine builds. -/
def filepathDir (s : String) : String :=
  let rcs := s.data.reverse
  let rest := rcs.dropWhile (· ≠ '/')
  let rest2 := rest.dropWhile (· = '/')
  if rest2 = [] then (if rest = [] then "." else "/")
  else String.mk rest2.reverse

/-- Mirrors Go `strings.TrimSuffix`. -/
def trimSuffix (s suffix : String) : String :=
  if suffix.data.isSuffixOf s.data then
    String.mk (s.data.take (s.data.length - suffix.data.length))
  else s

/-- Drop leading spaces; models a space in an `fmt.Sscanf` format string,
which matches zero or more spaces of input. -/
def skipSpaces (cs : List Char) : List Char := cs.dropWhile (· = ' ')

/-- Match a literal run of format characters exactly. -/
def matchLit (lit : List Char) (cs : List Char) : Option (List Char) :=
  if lit.isPrefixOf cs then some (cs.drop lit.length) else none

/-- Maximal run of decimal digits, and the rest. -/
def takeDigits (cs : List Char) : List Char × List Char :=
  (cs.takeWhile Char.isDigit, cs.dropWhile Char.isDigit)

/-- Decimal value of a digit run. -/
def digitsToInt (ds : List Char) : Int :=
  ds.foldl (fun acc c => acc * 10 + ((c.toNat - '0'.toNat : Nat) : Int)) 0

/-- Models the `%d` verb of `fmt.Sscanf`: skip spaces, then an optionally
signed run of at least one digit. -/
def scanInt (cs : List Char) : Option (Int × List Char) :=
  let cs1 := skipSpaces cs
  match cs1 with
  | '-' :: rest =>
    let ds := takeDigits rest
    if ds.1 = [] then none else some (-(digitsToInt ds.1), ds.2)
  | '+' :: rest =>
    let ds := takeDigits rest
    if ds.1 = [] then none else some (digitsToInt ds.1, ds.2)
  | _ =>
    let ds := takeDigits cs1
    if ds.1 = [] then none else some (digitsToInt ds.1, ds.2)

/-- Models `fmt.Sscanf(baseLower, "backup files %d", &num)`: succeeds when
one integer is assigned; trailing input is ignored. -/
def scanPatPlain (cs : List Char) : Option Int :=
  match matchLit "backup".data cs with
  | none => none
  | some cs1 =>
    match matchLit "files".data (skipSpaces cs1) with
    | none => none
    | some cs2 =>
      match scanInt cs2 with
      | none => none
      | some nr => some nr.1

/-- Models `fmt.Sscanf(baseLower, "backup files (%d)", &num)`; the closing
parenthesis must match for the scan to succeed without error. -/
def scanPatParen (cs : List Char) : Option Int :=
  match matchLit "backup".data cs with
  | none => none
  | some cs1 =>
    match matchLit "files".data (skipSpaces cs1) with
    | none => none
    | some cs2 =>
      match matchLit "(".data (skipSpaces cs2) with
      | none => none
      | some cs3 =>
        match scanInt cs3 with
        | none => none
        | some nr =>
          match matchLit ")".data nr.2 with
          | none => none
          | some _ => some nr.1

/-- Models `fmt.Sscanf(baseLower, "backupfiles%d", &num)`. -/
def scanPatCompact (cs : List Char) : Option Int :=
  match matchLit "backupfiles".data cs with
  | none => none
  | some cs1 =>
    match scanInt cs1 with
    | none => none
    | some nr => some nr.1

/-- Per-file index extraction in Go `findMissingBackupFiles`: take the base
name, trim the extension, lower-case, then try the three accepted naming
patterns in order. -/
def extractBackupNum (path : String) : Option Int :=
  let base := filepathBase path
  let base1 := trimSuffix base (filepathExt base)
  let baseLower := sLower base1
  match scanPatPlain baseLower.data with
  | some n => some n
  | none =>
    match scanPatParen baseLower.data with
    | some n => some n
    | none => scanPatCompact baseLower.data

/-- State of the number-collecting loop in Go `findMissingBackupFiles`:
the `numbers` membership map and the running `minNum`/`maxNum`, both
initialised to the sentinel `-1`. -/
structure NumAcc where
  numbers : Int → Bool
  minNum : Int
  maxNum : Int

/-- Update performed for each matched index in Go `findMissingBackupFiles`:
`numbers[num] = true`; `if minNum == -1 || num < minNum`; `if num > maxNum`. -/
def numAccStep (acc : NumAcc) (num : Int) : NumAcc :=
  { numbers := fun j => j == num || acc.numbers j
    minNum := if acc.minNum = -1 ∨ num < acc.minNum then num else acc.minNum
    maxNum := if acc.maxNum < num then num else acc.maxNum }

/-- Mirrors Go `findMissingBackupFiles`: extract indices from the accepted
patterns, then report every index in `[minNum, maxNum]` absent from the
matched set, rendered as `"Backup files N.zip"`. -/
def findMissingBackupFiles (backupFiles : List String) : List String :=
  if backupFiles.length = 0 then []
  else
    let acc := backupFiles.foldl
      (fun acc path =>
        match extractBackupNum path with
        | some num => numAccStep acc num
        | none => acc)
      { numbers := fun _ => false, minNum := -1, maxNum := -1 }
    if acc.minNum = -1 then []
    else
      (List.range (acc.maxNum - acc.minNum + 1).toNat).filterMap
        (fun k =>
          let i := acc.minNum + (k : Int)
          if acc.numbers i then none
          else some ("Backup files " ++ toString i ++ ".zip"))

/-- Mirrors Go `validateBackupCompleteness`. -/
def validateBackupCompleteness (env : Env) (setInfo : BackupSetInfo) :
    List ValidationIssue :=
  if setInfo.backupFiles.length > 0 then
    let missing := findMissingBackupFiles setInfo.backupFiles
    if missing.length > 0 then
      [newValidationIssue env .warning
        ("missing backup files in sequence: " ++ String.intercalate ", " missing)
        setInfo.path
        "some backup data may be incomplete or files were deleted"]
    else []
  else []

/-- Substring test on character lists (used only to state claims about
issue messages). -/
def containsSubstr : List Char → List Char → Bool
  | needle, [] => needle.isEmpty
  | needle, c :: rest => needle.isPrefixOf (c :: rest) || containsSubstr needle rest

/-- One probe of a sampled zip entry, mirroring the loop body of Go
`validateZipFile`: `file.Open`, then `io.ReadFull` of the first bytes, with
`io.EOF` and `io.ErrUnexpectedEOF` accepted. -/
def zipEntryProbe (e : ZipEntryInfo) : Option String :=
  match e.openErr with
  | some msg => some ("cannot open file " ++ e.name ++ " in zip: " ++ msg)
  | none =>
    match e.readRes with
    | .readFail msg => some ("cannot read file " ++ e.name ++ " in zip: " ++ msg)
    | _ => none

/-- Probe the first `n` entries in order, stopping at the first failure
(mirrors `for i := 0; i < testCount; i++` in Go `validateZipFile`). -/
def zipEntriesProbe : List ZipEntryInfo → Nat → Option String
  | _, 0 => none
  | [], _ + 1 => none
  | e :: es, n + 1 =>
    match zipEntryProbe e with
    | some msg => some msg
    | none => zipEntriesProbe es n

/-- Mirrors Go `validateZipFile`, returning the error message when the file
fails validation. -/
def validateZipFile (env : Env) (zipPath : String) : Option String :=
  match env.zipOpenF zipPath with
  | .error e => some ("cannot open zip: " ++ e)
  | .ok entries =>
    if entries.length = 0 then some "zip file is empty"
    else
      match zipEntriesProbe entries (min entries.length 3) with
      | some msg => some msg
      | none =>
        match entries with
        | [e] => if e.uncompressedSize = 0 then some "zip contains only empty file" else none
        | _ => none

/-- Mirrors Go `validateCatalogFile`. -/
def validateCatalogFile (env : Env) (catPath : String) : Option String :=
  match env.statF catPath with
  | .error e => some ("cannot stat catalog file: " ++ e)
  | .ok size =>
    if size = 0 then some "catalog file is empty"
    else
      match env.openF catPath with
      | some e => some ("cannot open catalog file: " ++ e)
      | none =>
        match env.readF catPath with
        | some e => some ("cannot read catalog file: " ++ e)
        | none => none

/-- Mirrors Go `validateMediaID`. -/
def validateMediaID (env : Env) (mediaIDPath : String) : Option String :=
  match env.statF mediaIDPath with
  | .error e => some ("cannot stat MediaID.bin: " ++ e)
  | .ok size =>
    if size = 0 then some "MediaID.bin is empty"
    else if size > 1024 * 1024 then
      some ("MediaID.bin is unusually large (" ++ toString size ++ " bytes)")
    else
      match env.openF mediaIDPath with
      | some e => some ("cannot open MediaID.bin: " ++ e)
      | none =>
        match env.readF mediaIDPath with
        | some e => some ("cannot read MediaID.bin: " ++ e)
        | none => none

/-- Whether the cancellation signal is observed as fired at the check
before processing file number `k` of a content-validation pass. -/
def ctxDoneAt (cancelAt : Option Nat) (k : Nat) : Bool :=
  match cancelAt with
  | none => false
  | some c => decide (c ≤ k)

/-- Accumulator of the two file loops in Go `validateBackupContent`:
issues and stats so far, the number of files processed so far (used as the
cancellation-check index), and whether the loop returned early on
cancellation. -/
structure ContentAcc where
  issues : List ValidationIssue
  stats : ValidationStats
  counter : Nat
  early : Bool
deriving Repr, Inhabited

/-- Mirrors the zip loop in Go `validateBackupContent`: check the
cancellation signal, increment `ValidatedFiles`, then either record a
corrupt file with an Error issue or increment `ContentChecks`. -/
def contentZipLoop (env : Env) (cancelAt : Option Nat) :
    List String → ContentAcc → ContentAcc
  | [], acc => acc
  | zipPath :: rest, acc =>
    if ctxDoneAt cancelAt acc.counter then { acc with early := true }
    else
      let stats1 := { acc.stats with validatedFiles := acc.stats.validatedFiles + 1 }
      match validateZipFile env zipPath with
      | some errMsg =>
        contentZipLoop env cancelAt rest
          { issues := acc.issues ++
              [newValidationIssue env .error ("corrupted backup file: " ++ errMsg)
                zipPath "backup file may need to be restored from another source"]
            stats := { stats1 with corruptFiles := stats1.corruptFiles + 1 }
            counter := acc.counter + 1
            early := false }
      | none =>
        contentZipLoop env cancelAt rest
          { acc with
            stats := { stats1 with contentChecks := stats1.contentChecks + 1 }
            counter := acc.counter + 1 }

/-- Mirrors the catalog loop in Go `validateBackupContent` (same shape as
the zip loop, but failures are Warnings). -/
def contentCatalogLoop (env : Env) (cancelAt : Option Nat) :
    List String → ContentAcc → ContentAcc
  | [], acc => acc
  | catPath :: rest, acc =>
    if ctxDoneAt cancelAt acc.counter then { acc with early := true }
    else
      let stats1 := { acc.stats with validatedFiles := acc.stats.validatedFiles + 1 }
      match validateCatalogFile env catPath with
      | some errMsg =>
        contentCatalogLoop env cancelAt rest
          { issues := acc.issues ++
              [newValidationIssue env .warning ("catalog file issue: " ++ errMsg)
                catPath "catalog may be corrupted but backup data might still be recoverable"]
            stats := { stats1 with corruptFiles := stats1.corruptFiles + 1 }
            counter := acc.counter + 1
            early := false }
      | none =>
        contentCatalogLoop env cancelAt rest
          { acc with
            stats := { stats1 with contentChecks := stats1.contentChecks + 1 }
            counter := acc.counter + 1 }

/-- Mirrors Go `validateBackupContent`: validate the backup zip files, then
(unless the zip loop returned early on cancellation) the catalog files,
returning the issues and partial stats accumulated so far. -/
def validateBackupContent (env : Env) (cancelAt : Option Nat)
    (setInfo : BackupSetInfo) : List ValidationIssue × ValidationStats :=
  let acc0 : ContentAcc := { issues := [], stats := zeroStats, counter := 0, early := false }
  let accZ := contentZipLoop env cancelAt setInfo.backupFiles acc0
  if accZ.early then (accZ.issues, accZ.stats)
  else
    let accC := contentCatalogLoop env cancelAt setInfo.catalogFiles accZ
    (accC.issues, accC.stats)

/-- Go `time.Hour` in nanoseconds. -/
def nsPerHour : Int := 3600000000000

/-- Go `90 * 24 * time.Hour` in nanoseconds. -/
def ns90Days : Int := 90 * 24 * nsPerHour

/-- Mirrors Go `validateBackupAge`: no issue for a zero modification time;
Info when the age is under one hour; Warning when it exceeds 90 days. -/
def validateBackupAge (env : Env) (setInfo : BackupSetInfo) :
    List ValidationIssue :=
  if setInfo.modTime = 0 then []
  else
    let age := env.now - setInfo.modTime
    let recentIssues : List ValidationIssue :=
      if age < nsPerHour then
        [newValidationIssue env .info
          ("backup is very recent (" ++ env.showDuration age ++ " old)")
          setInfo.path "backup might still be in progress"]
      else []
    let oldIssues : List ValidationIssue :=
      if age > ns90Days then
        [newValidationIssue env .warning
          ("backup is quite old (" ++ env.showDuration age ++ ")")
          setInfo.path "consider creating more recent backups"]
      else []
    recentIssues ++ oldIssues

/-- Mirrors Go `validateFileBackupSet`: run the structural, completeness,
content and age validators in order, concatenate their issues, assemble the
stats, and compute validity from the final issue list. -/
def validateFileBackupSet (env : Env) (cancelAt : Option Nat)
    (setInfo : BackupSetInfo) : BackupReport :=
  let issues1 := validateBackupStructure env setInfo
  let structuralChecks := countPassedChecks issues1 [Severity.critical, Severity.error]
  let issues2 := issues1 ++ validateBackupCompleteness env setInfo
  let content := validateBackupContent env cancelAt setInfo
  let issues3 := issues2 ++ content.1
  let issues4 := issues3 ++ validateBackupAge env setInfo
  let hasBackupTimes : Bool :=
    decide (0 < setInfo.catalogFiles.length) || decide (0 < setInfo.backupFiles.length)
  let stats : ValidationStats :=
    { totalFiles := setInfo.fileCount
      validatedFiles := content.2.validatedFiles
      corruptFiles := content.2.corruptFiles
      totalSize := setInfo.size
      validationTime := env.elapsedStr
      catalogFiles := (setInfo.catalogFiles.length : Int)
      backupFiles := (setInfo.backupFiles.length : Int)
      oldestBackupTime := if hasBackupTimes then some setInfo.modTime else none
      newestBackupTime := if hasBackupTimes then some setInfo.modTime else none
      structuralChecks := structuralChecks
      contentChecks := content.2.contentChecks }
  { backupDir := setInfo.path
    valid := validFromIssues issues4
    issues := issues4
    checkedAt := env.nowStr
    validationStats := stats }

/-- Element read at an integer index (Go slice indexing; all uses are in
range). -/
def lget [Inhabited α] (l : List α) (i : Int) : α := l.getD i.toNat default

/-- Element write at an integer index. -/
def lset (l : List α) (i : Int) (x : α) : List α := l.set i.toNat x

/-- Mirrors the `Swap` of Go `sort`'s `lessSwap`. -/
def lswap [Inhabited α] (l : List α) (i j : Int) : List α :=
  let xi := lget l i
  let xj := lget l j
  lset (lset l i xj) j xi

/-- Subslice `l[a:b]` as a list. -/
def readRange (l : List α) (a b : Int) : List α :=
  (l.drop a.toNat).take (b - a).toNat

/-- Write a block back over `l[a : a+xs.length]`. -/
def writeRange (l : List α) (a : Int) (xs : List α) : List α :=
  l.take a.toNat ++ xs ++ l.drop (a.toNat + xs.length)

/-- One step of Go `insertionSort_func`'s outer loop, on the reversed
already-sorted prefix: the new element bubbles left past every neighbour
`y` with `less x y`. -/
def insRev (less : α → α → Bool) (x : α) : List α → List α
  | [] => [x]
  | y :: ys => if less x y then y :: insRev less x ys else x :: y :: ys

/-- Go `insertionSort_func` as a function on lists: process elements left
to right, bubbling each into the sorted prefix (kept reversed while
folding). -/
def insertionSortGo (less : α → α → Bool) (l : List α) : List α :=
  (l.foldl (fun r x => insRev less x r) []).reverse

/-- Go `insertionSort_func` applied to the range `[a, b)` of a slice. -/
def insertionSortRange [Inhabited α] (less : α → α → Bool) (l : List α)
    (a b : Int) : List α :=
  writeRange l a (insertionSortGo less (readRange l a b))

/-- Go `math/bits.Len` on a `uint`. -/
def bitsLen (n : Nat) : Nat := if n = 0 then 0 else n.log2 + 1

/-- Go `sort`'s `nextPowerOfTwo`. -/
def nextPowerOfTwo (length : Nat) : Nat := 1 <<< bitsLen length

/-- Go `sort`'s `xorshift.Next` on a 64-bit state. -/
def xorshiftNext (x : Nat) : Nat :=
  let x1 := (x ^^^ (x <<< 13)) % 2 ^ 64
  let x2 := (x1 ^^^ (x1 >>> 7)) % 2 ^ 64
  (x2 ^^^ (x2 <<< 17)) % 2 ^ 64

/-- Index adjustment in Go `breakPatterns_func`: `other := random & (modulus-1);
if other >= length { other -= length }`. -/
def randTrim (r : Nat) (modulus length : Int) : Int :=
  let other : Int := (r : Int) % modulus
  if other ≥ length then other - length else other

/-- Go `breakPatterns_func`: three pseudo-random swaps around the middle of
the range, with a xorshift generator seeded by the range length. -/
def breakPatternsGo [Inhabited α] (l : List α) (a b : Int) : List α :=
  let length := b - a
  if length ≥ 8 then
    let modulus : Int := (nextPowerOfTwo length.toNat : Int)
    let idx := a + length / 4 * 2 - 1
    let r1 := xorshiftNext length.toNat
    let l1 := lswap l (idx - 1) (a + randTrim r1 modulus length)
    let r2 := xorshiftNext r1
    let l2 := lswap l1 idx (a + randTrim r2 modulus length)
    let r3 := xorshiftNext r2
    lswap l2 (idx + 1) (a + randTrim r3 modulus length)
  else l

/-- Ordered index pair plus swap count, mirroring Go `order2_func`. -/
structure Ord2 where
  x : Int
  y : Int
  swaps : Nat

/-- Go `order2_func`. -/
def order2Go [Inhabited α] (less : α → α → Bool) (l : List α) (a b : Int)
    (s : Nat) : Ord2 :=
  if less (lget l b) (lget l a) then ⟨b, a, s + 1⟩ else ⟨a, b, s⟩

/-- Go `median_func`: index of the median of three elements, counting
comparison swaps. -/
def medianGo [Inhabited α] (less : α → α → Bool) (l : List α) (a b c : Int)
    (s : Nat) : Int × Nat :=
  let o1 := order2Go less l a b s
  let o2 := order2Go less l o1.y c o1.swaps
  let o3 := order2Go less l o1.x o2.x o2.swaps
  (o3.y, o3.swaps)

/-- Go `medianAdjacent_func`. -/
def medianAdjacentGo [Inhabited α] (less : α → α → Bool) (l : List α)
    (a : Int) (s : Nat) : Int × Nat :=
  medianGo less l (a - 1) a (a + 1) s

/-- Hints returned by Go `choosePivot_func`. -/
inductive SortHint where
  | increasing
  | decreasing
  | unknown
deriving Repr, DecidableEq, Inhabited

/-- Translate the swap count of Go `choosePivot_func` into a hint
(`maxSwaps = 4 * 3`). -/
def pivotHint (j : Int) (swaps : Nat) : Int × SortHint :=
  if swaps = 0 then (j, .increasing)
  else if swaps = 12 then (j, .decreasing)
  else (j, .unknown)

/-- Go `choosePivot_func` (`shortestNinther = 50`). -/
def choosePivotGo [Inhabited α] (less : α → α → Bool) (l : List α)
    (a b : Int) : Int × SortHint :=
  let len := b - a
  let i0 := a + len / 4 * 1
  let j0 := a + len / 4 * 2
  let k0 := a + len / 4 * 3
  if len ≥ 8 then
    if len ≥ 50 then
      let mi := medianAdjacentGo less l i0 0
      let mj := medianAdjacentGo less l j0 mi.2
      let mk := medianAdjacentGo less l k0 mj.2
      let m := medianGo less l mi.1 mj.1 mk.1 mk.2
      pivotHint m.1 m.2
    else
      let m := medianGo less l i0 j0 k0 0
      pivotHint m.1 m.2
  else pivotHint j0 0

/-- Go `reverseRange_func` (the symmetric swap loop reverses the
subrange). -/
def reverseRangeGo (l : List α) (a b : Int) : List α :=
  writeRange l a (readRange l a b).reverse

/-- Advance past the sorted run: `for i < b && !data.Less(i, i-1) { i++ }`. -/
def advanceSorted [Inhabited α] (less : α → α → Bool) :
    Nat → List α → Int → Int → Int
  | 0, _, i, _ => i
  | fuel + 1, l, i, b =>
    if i < b ∧ ¬ less (lget l i) (lget l (i - 1)) then
      advanceSorted less fuel l (i + 1) b
    else i

/-- Left shift loop of Go `partialInsertionSort_func`. -/
def shiftLeftLoop [Inhabited α] (less : α → α → Bool) :
    Nat → List α → Int → List α
  | 0, l, _ => l
  | fuel + 1, l, j =>
    if j ≥ 1 ∧ less (lget l j) (lget l (j - 1)) then
      shiftLeftLoop less fuel (lswap l j (j - 1)) (j - 1)
    else l

/-- Right shift loop of Go `partialInsertionSort_func`. -/
def shiftRightLoop [Inhabited α] (less : α → α → Bool) :
    Nat → List α → Int → Int → List α
  | 0, l, _, _ => l
  | fuel + 1, l, j, b =>
    if j < b ∧ less (lget l j) (lget l (j - 1)) then
      shiftRightLoop less fuel (lswap l j (j - 1)) (j + 1) b
    else l

/-- Go `partialInsertionSort_func` (`maxSteps = 5`, `shortestShifting = 50`):
returns the (possibly modified) slice and whether it is now fully sorted. -/
def pdqInsertionAttempt [Inhabited α] (less : α → α → Bool) :
    Nat → List α → Int → Int → Int → List α × Bool
  | 0, l, _, _, _ => (l, false)
  | steps + 1, l, i0, a, b =>
    let i := advanceSorted less ((b - i0).toNat + 1) l i0 b
    if i = b then (l, true)
    else if b - a < 50 then (l, false)
    else
      let l1 := lswap l i (i - 1)
      let l2 := if i - a ≥ 2 then shiftLeftLoop less (i - 1).toNat l1 (i - 1) else l1
      let l3 := if b - i ≥ 2 then shiftRightLoop less (b - i).toNat l2 (i + 1) b else l2
      pdqInsertionAttempt less steps l3 i a b

/-- Left scan of Go `partition_func`: `for i <= j && data.Less(i, a)`. -/
def partScanLeft [Inhabited α] (less : α → α → Bool) :
    Nat → List α → Int → Int → Int → Int
  | 0, _, _, i, _ => i
  | fuel + 1, l, aIdx, i, j =>
    if i ≤ j ∧ less (lget l i) (lget l aIdx) then
      partScanLeft less fuel l aIdx (i + 1) j
    else i

/-- Right scan of Go `partition_func`: `for i <= j && !data.Less(j, a)`. -/
def partScanRight [Inhabited α] (less : α → α → Bool) :
    Nat → List α → Int → Int → Int → Int
  | 0, _, _, _, j => j
  | fuel + 1, l, aIdx, i, j =>
    if i ≤ j ∧ ¬ less (lget l j) (lget l aIdx) then
      partScanRight less fuel l aIdx i (j - 1)
    else j

/-- Main swap loop of Go `partition_func`. -/
def partitionLoop [Inhabited α] (less : α → α → Bool) (scanFuel : Nat) :
    Nat → List α → Int → Int → Int → List α × Int
  | 0, l, _, _, j => (l, j)
  | fuel + 1, l, aIdx, i, j =>
    let i1 := partScanLeft less scanFuel l aIdx i j
    let j1 := partScanRight less scanFuel l aIdx i1 j
    if i1 > j1 then (l, j1)
    else partitionLoop less scanFuel fuel (lswap l i1 j1) aIdx (i1 + 1) (j1 - 1)

/-- Go `partition_func`: Hoare partition around the pivot (moved to `a`),
returning the slice, the new pivot position, and whether the range was
already partitioned. -/
def partitionGo [Inhabited α] (less : α → α → Bool) (l : List α)
    (a b pivot : Int) : List α × Int × Bool :=
  let l0 := lswap l a pivot
  let scanFuel := (b - a).toNat + 2
  let i0 := partScanLeft less scanFuel l0 a (a + 1) (b - 1)
  let j0 := partScanRight less scanFuel l0 a i0 (b - 1)
  if i0 > j0 then (lswap l0 j0 a, j0, true)
  else
    let res := partitionLoop less scanFuel scanFuel (lswap l0 i0 j0) a (i0 + 1) (j0 - 1)
    (lswap res.1 res.2 a, res.2, false)

/-- Left scan of Go `partitionEqual_func`: `for i <= j && !data.Less(a, i)`. -/
def partEqScanLeft [Inhabited α] (less : α → α → Bool) :
    Nat → List α → Int → Int → Int → Int
  | 0, _, _, i, _ => i
  | fuel + 1, l, aIdx, i, j =>
    if i ≤ j ∧ ¬ less (lget l aIdx) (lget l i) then
      partEqScanLeft less fuel l aIdx (i + 1) j
    else i

/-- Right scan of Go `partitionEqual_func`: `for i <= j && data.Less(a, j)`. -/
def partEqScanRight [Inhabited α] (less : α → α → Bool) :
    Nat → List α → Int → Int → Int → Int
  | 0, _, _, _, j => j
  | fuel + 1, l, aIdx, i, j =>
    if i ≤ j ∧ less (lget l aIdx) (lget l j) then
      partEqScanRight less fuel l aIdx i (j - 1)
    else j

/-- Swap loop of Go `partitionEqual_func`; returns the slice and `i`. -/
def partitionEqualLoop [Inhabited α] (less : α → α → Bool) (scanFuel : Nat) :
    Nat → List α → Int → Int → Int → List α × Int
  | 0, l, _, i, _ => (l, i)
  | fuel + 1, l, aIdx, i, j =>
    let i1 := partEqScanLeft less scanFuel l aIdx i j
    let j1 := partEqScanRight less scanFuel l aIdx i1 j
    if i1 > j1 then (l, i1)
    else partitionEqualLoop less scanFuel fuel (lswap l i1 j1) aIdx (i1 + 1) (j1 - 1)

/-- Go `partitionEqual_func`. -/
def partitionEqualGo [Inhabited α] (less : α → α → Bool) (l : List α)
    (a b pivot : Int) : List α × Int :=
  let l0 := lswap l a pivot
  let scanFuel := (b - a).toNat + 2
  partitionEqualLoop less scanFuel scanFuel l0 a (a + 1) (b - 1)

/-- Inner loop of Go `siftDown_func`, with the current root as parameter. -/
def siftDownLoop [Inhabited α] (less : α → α → Bool) :
    Nat → List α → Int → Int → Int → List α
  | 0, l, _, _, _ => l
  | fuel + 1, l, root, hi, first =>
    let child := 2 * root + 1
    if child ≥ hi then l
    else
      let child2 :=
        if child + 1 < hi ∧ less (lget l (first + child)) (lget l (first + child + 1))
        then child + 1 else child
      if ¬ less (lget l (first + root)) (lget l (first + child2)) then l
      else siftDownLoop less fuel (lswap l (first + root) (first + child2)) child2 hi first

/-- Heap-building loop of Go `heapSort_func`. -/
def heapBuildLoop [Inhabited α] (less : α → α → Bool) :
    Nat → List α → Int → Int → Int → List α
  | 0, l, _, _, _ => l
  | fuel + 1, l, i, hi, first =>
    if i ≥ 0 then
      heapBuildLoop less fuel (siftDownLoop less (hi.toNat + 2) l i hi first) (i - 1) hi first
    else l

/-- Pop loop of Go `heapSort_func`. -/
def heapPopLoop [Inhabited α] (less : α → α → Bool) :
    Nat → List α → Int → Int → List α
  | 0, l, _, _ => l
  | fuel + 1, l, i, first =>
    if i ≥ 0 then
      heapPopLoop less fuel
        (siftDownLoop less (i.toNat + 2) (lswap l first (first + i)) 0 i first) (i - 1) first
    else l

/-- Go `heapSort_func`. -/
def heapSortGo [Inhabited α] (less : α → α → Bool) (l : List α)
    (a b : Int) : List α :=
  let hi := b - a
  let l1 := heapBuildLoop less (hi.toNat + 1) l ((hi - 1) / 2) hi a
  heapPopLoop less (hi.toNat + 1) l1 (hi - 1) a

/-- Go `pdqsort_func` (`maxInsertion = 12`): the main loop, with the
recursion depth bounded by fuel (every loop iteration and recursive call
strictly shrinks the range, so the fuel passed by `sortSliceGo` is never
exhausted). -/
def pdqLoop [Inhabited α] (less : α → α → Bool) :
    Nat → List α → Int → Int → Int → Bool → Bool → List α
  | 0, l, _, _, _, _, _ => l
  | fuel + 1, l, a, b, limit, wasBalanced, wasPartitioned =>
    if b - a ≤ 12 then insertionSortRange less l a b
    else if limit = 0 then heapSortGo less l a b
    else
      let stage1 := if ¬ wasBalanced then (breakPatternsGo l a b, limit - 1) else (l, limit)
      let l1 := stage1.1
      let limit1 := stage1.2
      let pv := choosePivotGo less l1 a b
      let pv2 :=
        if pv.2 = SortHint.decreasing then
          (reverseRangeGo l1 a b, (b - 1) - (pv.1 - a), SortHint.increasing)
        else (l1, pv.1, pv.2)
      let l2 := pv2.1
      let pivot := pv2.2.1
      let hint := pv2.2.2
      let att :=
        if wasBalanced ∧ wasPartitioned ∧ hint = SortHint.increasing then
          pdqInsertionAttempt less 5 l2 (a + 1) a b
        else (l2, false)
      if att.2 then att.1
      else
        let l3 := att.1
        if a > 0 ∧ ¬ less (lget l3 (a - 1)) (lget l3 pivot) then
          let pe := partitionEqualGo less l3 a b pivot
          pdqLoop less fuel pe.1 pe.2 b limit1 wasBalanced wasPartitioned
        else
          let pt := partitionGo less l3 a b pivot
          let mid := pt.2.1
          let alreadyPartitioned := pt.2.2
          let leftLen := mid - a
          let rightLen := b - mid
          let balanceThreshold := (b - a) / 8
          let wasBalanced2 := decide (min leftLen rightLen ≥ balanceThreshold)
          if leftLen < rightLen then
            let lrec := pdqLoop less fuel pt.1 a mid limit1 true true
            pdqLoop less fuel lrec (mid + 1) b limit1 wasBalanced2 alreadyPartitioned
          else
            let lrec := pdqLoop less fuel pt.1 (mid + 1) b limit1 true true
            pdqLoop less fuel lrec a mid limit1 wasBalanced2 alreadyPartitioned

/-- Go `sort.Slice` / `sort.Sort`: pdqsort over the whole slice with
`limit = bits.Len(uint(length))`. -/
def sortSliceGo [Inhabited α] (less : α → α → Bool) (l : List α) : List α :=
  pdqLoop less (l.length + 8) l 0 (l.length : Int) (bitsLen l.length : Int) true true

/-- Comparator of `sort.Strings` (ascending byte order; on the paths
involved this agrees with Lean's `String` order). -/
def strLess (a b : String) : Bool := decide (a < b)

/-- Comparator passed to `sort.Slice` in Go `discoverBackupSets`:
`backupSets[i].ModTime.After(backupSets[j].ModTime)`. -/
def lessBackupSet (x y : BackupSetInfo) : Bool := decide (y.modTime < x.modTime)

/-- Mirrors Go `gatherBackupSetInfo`.  The walk callback swallows every
error (it returns `nil` in all paths), so `filepath.Walk` always returns
`nil` and the error branch of the caller is unreachable; the model
therefore returns the descriptor directly. -/
def gatherBackupSetInfo (env : Env) (setPath : String) : BackupSetInfo :=
  let info0 : BackupSetInfo :=
    { path := setPath, size := 0, fileCount := 0, modTime := 0,
      catalogFiles := [], backupFiles := [] }
  let info := (env.walkF setPath).foldl
    (fun info item =>
      if item.errFlag then info
      else if item.isDir then info
      else
        let ext := sLower (filepathExt item.path)
        let info1 :=
          { info with
            fileCount := info.fileCount + 1
            size := info.size + item.size
            modTime := if info.modTime < item.modTime then item.modTime else info.modTime }
        if ext = ".wbcat" ∨ ext = ".cat" then
          if filepathBase (filepathDir item.path) = "Catalogs" then
            { info1 with catalogFiles := info1.catalogFiles ++ [item.path] }
          else info1
        else if ext = ".zip" then
          { info1 with backupFiles := info1.backupFiles ++ [item.path] }
        else info1)
    info0
  { info with
    backupFiles := sortSliceGo strLess info.backupFiles
    catalogFiles := sortSliceGo strLess info.catalogFiles }

/-- The candidate descriptors of Go `discoverBackupSets` in discovery
order, before the final sort: machine directories in `os.ReadDir` order,
then their extensionless subdirectories in `os.ReadDir` order. -/
def discoverCandidates (env : Env) (root : String) :
    Except String (List BackupSetInfo) :=
  match env.readDirF root with
  | .error e => .error ("failed to read backup root: " ++ e)
  | .ok entries =>
    .ok (entries.foldl
      (fun acc entry =>
        if ¬ entry.isDir ∨ entry.name = "." ∨ entry.name = ".." then acc
        else
          let machineDir := pathJoin root entry.name
          match env.readDirF machineDir with
          | .error _ => acc
          | .ok setDirs =>
            acc ++ setDirs.foldl
              (fun acc2 setDir =>
                if ¬ setDir.isDir ∨ filepathExt setDir.name ≠ "" then acc2
                else acc2 ++ [gatherBackupSetInfo env (pathJoin machineDir setDir.name)])
              [])
      [])

/-- Mirrors Go `discoverBackupSets`: gather candidates, then
`sort.Slice(backupSets, ...ModTime.After...)`. -/
def discoverBackupSets (env : Env) (root : String) :
    Except String (List BackupSetInfo) :=
  match discoverCandidates env root with
  | .error e => .error e
  | .ok sets => .ok (sortSliceGo lessBackupSet sets)

/-- Abstraction of one concurrent execution of the worker pool in Go
`validateBackupSets`.  The dispatcher enqueues indices `0, 1, 2, ...` in
order and the FIFO queue is consumed in order, so the set of indices whose
validation ran (and whose result slot was written) is a prefix
`[0, completed)`; a worker that has received an index always writes its
slot before exiting.  `workerOf i` records which worker validated index
`i`, and `perSetCancel i` is the cancellation observation point inside that
validation (see `ctxDoneAt`). -/
structure Schedule where
  completed : Nat
  workerOf : Nat → Nat
  perSetCancel : Nat → Option Nat

/-- A schedule that can arise with `workers` workers on `sets`: the
completed prefix is within bounds and every completed index was validated
by one of the `workers` workers. -/
def ScheduleFeasible (workers : Int) (sets : List BackupSetInfo)
    (sch : Schedule) : Prop :=
  sch.completed ≤ sets.length ∧
    ∀ i, i < sch.completed → (sch.workerOf i : Int) < workers

/-- The results slice produced by one execution of the pool: pre-allocated
zero-valued reports, with slot `i` overwritten by the validation of
descriptor `i` exactly when index `i` was consumed (index-addressed
writes). -/
def poolOutcome (env : Env) (sets : List BackupSetInfo) (sch : Schedule) :
    List BackupReport :=
  (List.range sets.length).map (fun i =>
    if i < sch.completed then
      validateFileBackupSet env (sch.perSetCancel i) (sets.getD i default)
    else zeroReport)

/-- The possible outputs of Go `validateBackupSets` for a given worker
count: the function first normalises `maxWorkers <= 0` to `1`, then any
schedule feasible for the effective worker count may occur. -/
def validateBackupSetsOutcome (env : Env) (sets : List BackupSetInfo)
    (maxWorkers : Int) (out : List BackupReport) : Prop :=
  let effectiveWorkers : Int := if maxWorkers ≤ 0 then 1 else maxWorkers
  ∃ sch : Schedule, ScheduleFeasible effectiveWorkers sets sch ∧
    out = poolOutcome env sets sch

/-- The schedule of a run in which the cancellation signal never fires:
every index is dispatched, consumed and fully validated. -/
def fullSchedule (n : Nat) : Schedule :=
  { completed := n, workerOf := fun _ => 0, perSetCancel := fun _ => none }

/-- Deterministic result of Go `validateBackupSets` for a given schedule
(the worker-count normalisation is applied by the caller through
`validateBackupSetsOutcome`; the slot contents themselves are
index-addressed and schedule-determined). -/
def validateBackupSets (env : Env) (sch : Schedule)
    (sets : List BackupSetInfo) (maxWorkers : Int) : List BackupReport :=
  let effectiveWorkers : Int := if maxWorkers ≤ 0 then 1 else maxWorkers
  let _ := effectiveWorkers
  poolOutcome env sets sch

/-- Mirrors Go `ScanFileBackupDir`: require `MediaID.bin` at the root
(absence is a single synthetic Critical report and an immediate return),
validate it (failure adds a root-level Error report but continues),
discover the backup sets (a discovery error is returned as an error), and
validate them with the worker pool. -/
def ScanFileBackupDir (env : Env) (sch : Schedule) (root : String)
    (maxWorkers : Int) : Except String ScanReport :=
  let mediaIDPath := pathJoin root "MediaID.bin"
  if !env.fileExistsF mediaIDPath then
    .ok { root := root
          reports := [{ backupDir := root
                        valid := false
                        issues := [newValidationIssue env .critical
                          "missing MediaID.bin at root" root
                          "ensure the backup root directory is correct and contains MediaID.bin"]
                        checkedAt := env.nowStr
                        validationStats := zeroStats }] }
  else
    let baseReports : List BackupReport :=
      match validateMediaID env mediaIDPath with
      | some e =>
        [{ backupDir := root
           valid := false
           issues := [newValidationIssue env .error ("invalid MediaID.bin: " ++ e)
             mediaIDPath "check if MediaID.bin is corrupted or from a different backup system"]
           checkedAt := env.nowStr
           validationStats := zeroStats }]
      | none => []
    match discoverBackupSets env root with
    | .error e => .error ("failed to discover backup sets: " ++ e)
    | .ok sets =>
      .ok { root := root
            reports := baseReports ++ validateBackupSets env sch sets maxWorkers }

/-! Concrete instances used by witnesses and counterexamples. -/

/-- A minimal concrete environment: no files or directories exist, every
stat fails, every zip opens with no entries, directory reads fail, walks
are empty. -/
def envA : Env :=
  { dirExistsF := fun _ => false
    fileExistsF := fun _ => false
    statF := fun _ => .error "stat failed"
    openF := fun _ => none
    readF := fun _ => none
    zipOpenF := fun _ => .ok []
    readDirF := fun _ => .error "read failed"
    walkF := fun _ => []
    now := 0
    nowStr := "2026-01-01T00:00:00Z"
    showDuration := fun _ => "1h0m0s"
    elapsedStr := "1ms" }

/-- A trivial schedule (nothing completed). -/
def schA : Schedule :=
  { completed := 0, workerOf := fun _ => 0, perSetCancel := fun _ => none }

/-- The initial accumulator of a content-validation pass. -/
def accA : ContentAcc :=
  { issues := [], stats := zeroStats, counter := 0, early := false }

/-- Descriptor with every structural condition failing at once. -/
def setInfoEmpty : BackupSetInfo :=
  { path := "S", size := 0, fileCount := 0, modTime := 0,
    catalogFiles := [], backupFiles := [] }

/-- Descriptor whose backup-data files carry indices 1, 3 and 4 in the
canonical naming pattern. -/
def setInfoGap : BackupSetInfo :=
  { path := "S", size := 4096, fileCount := 3, modTime := 0,
    catalogFiles := [],
    backupFiles := ["Backup Files 1.zip", "Backup Files 3.zip", "Backup Files 4.zip"] }

/-- Environment with two backup sets under one machine directory (for the
small-discovery witness): modification times 5 and 7 in discovery order. -/
def envDisc2 : Env :=
  { envA with
    readDirF := fun p =>
      if p = "R" then .ok [{ name := "M", isDir := true }]
      else if p = "R/M" then
        .ok [{ name := "sa", isDir := true }, { name := "sb", isDir := true }]
      else .error "read failed"
    walkF := fun p =>
      if p = "R/M/sa" then
        [{ path := "R/M/sa/f", size := 1, modTime := 5, isDir := false, errFlag := false }]
      else if p = "R/M/sb" then
        [{ path := "R/M/sb/f", size := 1, modTime := 7, isDir := false, errFlag := false }]
      else [] }

/-- Modification times of the thirteen sets of `envDisc13`, in discovery
order. -/
def disc13Times : List (String × Int) :=
  [("R/M/s01", 3), ("R/M/s02", 5), ("R/M/s03", 5), ("R/M/s04", 9),
   ("R/M/s05", 9), ("R/M/s06", 1), ("R/M/s07", 1), ("R/M/s08", 8),
   ("R/M/s09", 8), ("R/M/s10", 2), ("R/M/s11", 2), ("R/M/s12", 7),
   ("R/M/s13", 7)]

/-- Environment with thirteen backup sets under one machine directory,
with repeated modification times (used to exercise the unstable branch of
`sort.Slice`). -/
def envDisc13 : Env :=
  { envA with
    readDirF := fun p =>
      if p = "R" then .ok [{ name := "M", isDir := true }]
      else if p = "R/M" then
        .ok ((disc13Times.map (fun q => filepathBase q.1)).map
          (fun n => { name := n, isDir := true }))
      else .error "read failed"
    walkF := fun p =>
      match disc13Times.lookup p with
      | some t => [{ path := p ++ "/f", size := 1, modTime := t, isDir := false, errFlag := false }]
      | none => [] }

/-- A one-file backup-set descriptor, as produced by `gatherBackupSetInfo`
on the environments below. -/
def mkSet (p : String) (t : Int) : BackupSetInfo :=
  { path := p, size := 1, fileCount := 1, modTime := t,
    catalogFiles := [], backupFiles := [] }

/-- The thirteen candidates discovered by `envDisc13`, in discovery
order. -/
def candsDisc13 : List BackupSetInfo :=
  disc13Times.map (fun q => mkSet q.1 q.2)

/-- The output of `discoverBackupSets` on `envDisc13`: sorted descending,
but the ties at modification times 7 and 1 are reversed relative to
discovery order. -/
def outDisc13 : List BackupSetInfo :=
  [mkSet "R/M/s04" 9, mkSet "R/M/s05" 9, mkSet "R/M/s08" 8, mkSet "R/M/s09" 8,
   mkSet "R/M/s13" 7, mkSet "R/M/s12" 7, mkSet "R/M/s02" 5, mkSet "R/M/s03" 5,
   mkSet "R/M/s01" 3, mkSet "R/M/s10" 2, mkSet "R/M/s11" 2, mkSet "R/M/s07" 1,
   mkSet "R/M/s06" 1]

/-- The candidates discovered by `envDisc2` in discovery order. -/
def candsDisc2 : List BackupSetInfo :=
  [{ path := "R/M/sa", size := 1, fileCount := 1, modTime := 5,
     catalogFiles := [], backupFiles := [] },
   { path := "R/M/sb", size := 1, fileCount := 1, modTime := 7,
     catalogFiles := [], backupFiles := [] }]

/-! Helper lemmas. -/

/-- The validity loop accepts exactly the issue lists with no issue of
severity at least Error. -/
theorem validFromIssues_iff (l : List ValidationIssue) :
    validFromIssues l = true ↔
      ∀ issue ∈ l, issue.severity.toInt < Severity.error.toInt := by
  induction l with
  | nil => simp [validFromIssues]
  | cons i is ih =>
    simp only [validFromIssues]
    split
    · rename_i h
      refine iff_of_false (by simp) ?_
      intro hall
      exact absurd (hall i (List.mem_cons_self i is)) (not_lt.mpr h)
    · rename_i h
      rw [ih]
      constructor
      · intro hall issue hm
        rcases List.mem_cons.mp hm with rfl | hm2
        · exact not_le.mp h
        · exact hall issue hm2
      · intro hall issue hm
        exact hall issue (List.mem_cons_of_mem _ hm)

/-- Stats invariant of the zip loop: each processed file adds one to
`ValidatedFiles` and one to exactly one of `CorruptFiles` and
`ContentChecks`. -/
theorem contentZipLoop_stats_inv (env : Env) (c : Option Nat) :
    ∀ (ps : List String) (acc : ContentAcc),
      acc.stats.validatedFiles = acc.stats.corruptFiles + acc.stats.contentChecks →
      (contentZipLoop env c ps acc).stats.validatedFiles =
        (contentZipLoop env c ps acc).stats.corruptFiles +
          (contentZipLoop env c ps acc).stats.contentChecks
  | [], _, h => h
  | p :: ps, acc, h => by
    simp only [contentZipLoop]
    split
    · exact h
    · split
      · exact contentZipLoop_stats_inv env c ps _ (by
          show acc.stats.validatedFiles + 1 =
            acc.stats.corruptFiles + 1 + acc.stats.contentChecks
          omega)
      · exact contentZipLoop_stats_inv env c ps _ (by
          show acc.stats.validatedFiles + 1 =
            acc.stats.corruptFiles + (acc.stats.contentChecks + 1)
          omega)

/-- Stats invariant of the catalog loop (same shape as the zip loop). -/
theorem contentCatalogLoop_stats_inv (env : Env) (c : Option Nat) :
    ∀ (ps : List String) (acc : ContentAcc),
      acc.stats.validatedFiles = acc.stats.corruptFiles + acc.stats.contentChecks →
      (contentCatalogLoop env c ps acc).stats.validatedFiles =
        (contentCatalogLoop env c ps acc).stats.corruptFiles +
          (contentCatalogLoop env c ps acc).stats.contentChecks
  | [], _, h => h
  | p :: ps, acc, h => by
    simp only [contentCatalogLoop]
    split
    · exact h
    · split
      · exact contentCatalogLoop_stats_inv env c ps _ (by
          show acc.stats.validatedFiles + 1 =
            acc.stats.corruptFiles + 1 + acc.stats.contentChecks
          omega)
      · exact contentCatalogLoop_stats_inv env c ps _ (by
          show acc.stats.validatedFiles + 1 =
            acc.stats.corruptFiles + (acc.stats.contentChecks + 1)
          omega)

/-- Membership in a bubble insertion. -/
theorem insRev_mem {α : Type} (less : α → α → Bool) (x : α) :
    ∀ (r : List α) (z : α), z ∈ insRev less x r ↔ z = x ∨ z ∈ r
  | [], z => by simp [insRev]
  | y :: ys, z => by
    simp only [insRev]
    split
    · rw [List.mem_cons, insRev_mem less x ys z, List.mem_cons]
      tauto
    · simp only [List.mem_cons]

/-- Length of a bubble insertion. -/
theorem insRev_length {α : Type} (less : α → α → Bool) (x : α) :
    ∀ r : List α, (insRev less x r).length = r.length + 1
  | [] => rfl
  | y :: ys => by
    simp only [insRev]
    split
    · simp only [List.length_cons, insRev_length less x ys]
    · simp only [List.length_cons]

/-- Length after folding bubble insertions. -/
theorem foldl_insRev_length {α : Type} (less : α → α → Bool) :
    ∀ (l r : List α),
      (l.foldl (fun r x => insRev less x r) r).length = r.length + l.length
  | [], r => by simp
  | x :: xs, r => by
    simp only [List.foldl_cons]
    rw [foldl_insRev_length less xs _, insRev_length]
    simp only [List.length_cons]
    omega

/-- The insertion sort preserves length. -/
theorem insertionSortGo_length {α : Type} (less : α → α → Bool) (l : List α) :
    (insertionSortGo less l).length = l.length := by
  unfold insertionSortGo
  rw [List.length_reverse, foldl_insRev_length]
  simp

/-- Bubble insertion into a key-ascending list stays key-ascending. -/
theorem insRev_pairwise {α : Type} (k : α → Int) (x : α) :
    ∀ r : List α, r.Pairwise (fun a b => k a ≤ k b) →
      (insRev (fun u v => decide (k v < k u)) x r).Pairwise
        (fun a b => k a ≤ k b)
  | [], _ => by simp [insRev]
  | y :: ys, h => by
    rw [List.pairwise_cons] at h
    obtain ⟨hy, hys⟩ := h
    simp only [insRev]
    split
    · rename_i hlt
      have hlt2 : k y < k x := of_decide_eq_true hlt
      rw [List.pairwise_cons]
      refine ⟨?_, insRev_pairwise k x ys hys⟩
      intro z hz
      rcases (insRev_mem _ x ys z).mp hz with rfl | hzys
      · exact le_of_lt hlt2
      · exact hy z hzys
    · rename_i hnlt
      have hle : k x ≤ k y := not_lt.mp (by simpa using hnlt)
      rw [List.pairwise_cons]
      refine ⟨?_, List.pairwise_cons.mpr ⟨hy, hys⟩⟩
      intro z hz
      rcases List.mem_cons.mp hz with rfl | hzys
      · exact hle
      · exact le_trans hle (hy z hzys)

/-- Effect of a bubble insertion on the elements with a given key: the new
element lands after every earlier element of its own key. -/
theorem insRev_filter {α : Type} (k : α → Int) (t : Int) (x : α) :
    ∀ r : List α,
      (insRev (fun u v => decide (k v < k u)) x r).filter (fun s => k s == t) =
        if k x = t then x :: r.filter (fun s => k s == t)
        else r.filter (fun s => k s == t)
  | [] => by
    by_cases hx : k x = t <;>
      simp [insRev, List.filter_cons, List.filter_nil, hx]
  | y :: ys => by
    simp only [insRev]
    split
    · rename_i hlt
      have hlt2 : k y < k x := of_decide_eq_true hlt
      by_cases hx : k x = t
      · have hyt : (k y == t) = false := by
          subst hx
          simp only [beq_eq_false_iff_ne, ne_eq]
          omega
        simp [List.filter_cons, hyt, insRev_filter k t x ys, hx]
      · simp [List.filter_cons, insRev_filter k t x ys, hx]
    · by_cases hx : k x = t <;> simp [List.filter_cons, hx]

/-- Folding bubble insertions preserves key-ascending order. -/
theorem foldl_insRev_pairwise {α : Type} (k : α → Int) :
    ∀ (l r : List α), r.Pairwise (fun a b => k a ≤ k b) →
      (l.foldl (fun r x => insRev (fun u v => decide (k v < k u)) x r) r).Pairwise
        (fun a b => k a ≤ k b)
  | [], _, h => h
  | x :: xs, r, h =>
    foldl_insRev_pairwise k xs _ (insRev_pairwise k x r h)

/-- Elements of a given key, after folding bubble insertions. -/
theorem foldl_insRev_filter {α : Type} (k : α → Int) (t : Int) :
    ∀ (l r : List α),
      (l.foldl (fun r x => insRev (fun u v => decide (k v < k u)) x r) r).filter
          (fun s => k s == t) =
        (l.filter (fun s => k s == t)).reverse ++ r.filter (fun s => k s == t)
  | [], r => by simp
  | x :: xs, r => by
    simp only [List.foldl_cons]
    rw [foldl_insRev_filter k t xs _, insRev_filter k t x r]
    by_cases hx : k x = t
    · simp [List.filter_cons, hx]
    · simp [List.filter_cons, hx]

/-- The insertion sort orders descending by key. -/
theorem insertionSortGo_sorted {α : Type} (k : α → Int) (l : List α) :
    (insertionSortGo (fun u v => decide (k v < k u)) l).Pairwise
      (fun a b => k b ≤ k a) := by
  unfold insertionSortGo
  rw [List.pairwise_reverse]
  exact foldl_insRev_pairwise k l [] (by simp)

/-- The insertion sort is stable: elements of equal key keep their input
order. -/
theorem insertionSortGo_stable {α : Type} (k : α → Int) (t : Int) (l : List α) :
    (insertionSortGo (fun u v => decide (k v < k u)) l).filter
        (fun s => k s == t) =
      l.filter (fun s => k s == t) := by
  unfold insertionSortGo
  rw [List.filter_reverse, foldl_insRev_filter k t l []]
  simp

/-- On at most 12 elements, `sort.Slice` is exactly the insertion sort
(the pdqsort loop takes its `maxInsertion` branch immediately). -/
theorem sortSliceGo_small {α : Type} [Inhabited α] (less : α → α → Bool)
    (l : List α) (h : l.length ≤ 12) :
    sortSliceGo less l = insertionSortGo less l := by
  unfold sortSliceGo
  rw [show l.length + 8 = (l.length + 7) + 1 from rfl]
  rw [pdqLoop]
  rw [if_pos (by omega : ((l.length : Int) - 0 ≤ 12))]
  unfold insertionSortRange readRange writeRange
  have h1 : ((l.length : Int) - 0).toNat = l.length := by omega
  have h2 : (0 : Int).toNat = 0 := rfl
  simp [h1, h2, insertionSortGo_length]

/-! Claim theorems. -/

/-- C1: a per-set report's `Valid` flag is true iff no issue in its
`Issues` list has severity at least Error, with severities ordered
Info < Warning < Error < Critical. -/
theorem valid_iff_no_error_issue (env : Env) (cancelAt : Option Nat)
    (setInfo : BackupSetInfo) :
    ((validateFileBackupSet env cancelAt setInfo).valid = true ↔
      ∀ issue ∈ (validateFileBackupSet env cancelAt setInfo).issues,
        issue.severity.toInt < Severity.error.toInt) ∧
    (Severity.info.toInt < Severity.warning.toInt ∧
      Severity.warning.toInt < Severity.error.toInt ∧
      Severity.error.toInt < Severity.critical.toInt) :=
  ⟨validFromIssues_iff _, by decide⟩

/-- C1 witness at a concrete environment and descriptor. -/
theorem valid_iff_no_error_issue_witness :
    (validateFileBackupSet envA none setInfoEmpty).valid = true ↔
      ∀ issue ∈ (validateFileBackupSet envA none setInfoEmpty).issues,
        issue.severity.toInt < Severity.error.toInt :=
  (valid_iff_no_error_issue envA none setInfoEmpty).1

/-- C2: a root whose marker file `MediaID.bin` is absent yields exactly one
report, addressed to the root, with exactly one Critical issue,
`Valid = false`, and no per-set reports. -/
theorem missing_marker_single_critical_report (env : Env) (sch : Schedule)
    (root : String) (maxWorkers : Int)
    (h : env.fileExistsF (pathJoin root "MediaID.bin") = false) :
    ∃ rep : BackupReport,
      ScanFileBackupDir env sch root maxWorkers =
        .ok { root := root, reports := [rep] } ∧
      rep.backupDir = root ∧ rep.valid = false ∧
      rep.issues.length = 1 ∧
      ∀ issue ∈ rep.issues, issue.severity = Severity.critical := by
  refine ⟨{ backupDir := root
            valid := false
            issues := [newValidationIssue env .critical
              "missing MediaID.bin at root" root
              "ensure the backup root directory is correct and contains MediaID.bin"]
            checkedAt := env.nowStr
            validationStats := zeroStats }, ?_, rfl, rfl, rfl, ?_⟩
  · simp only [ScanFileBackupDir, h, Bool.not_false, if_true]
  · intro issue hm
    rcases List.mem_singleton.mp hm with rfl
    rfl

/-- C2 witness at a concrete environment. -/
theorem missing_marker_single_critical_report_witness :
    ∃ rep : BackupReport,
      ScanFileBackupDir envA schA "R" 4 = .ok { root := "R", reports := [rep] } ∧
      rep.backupDir = "R" ∧ rep.valid = false ∧
      rep.issues.length = 1 ∧
      ∀ issue ∈ rep.issues, issue.severity = Severity.critical :=
  missing_marker_single_critical_report envA schA "R" 4 rfl

/-- C7: a backup-data archive that opens with zero entries makes the
content validator record an Error issue whose message contains "empty" and
raise the corrupt-file count by exactly one for that file (while also
counting it as validated). -/
theorem empty_zip_error_and_corrupt_increment (env : Env)
    (cancelAt : Option Nat) (zipPath : String) (rest : List String)
    (acc : ContentAcc)
    (hopen : env.zipOpenF zipPath = .ok [])
    (hlive : ctxDoneAt cancelAt acc.counter = false) :
    contentZipLoop env cancelAt (zipPath :: rest) acc =
      contentZipLoop env cancelAt rest
        { issues := acc.issues ++
            [newValidationIssue env .error "corrupted backup file: zip file is empty"
              zipPath "backup file may need to be restored from another source"]
          stats := { acc.stats with
            validatedFiles := acc.stats.validatedFiles + 1
            corruptFiles := acc.stats.corruptFiles + 1 }
          counter := acc.counter + 1
          early := false } ∧
    (newValidationIssue env .error "corrupted backup file: zip file is empty"
      zipPath "backup file may need to be restored from another source").severity =
      Severity.error ∧
    containsSubstr "empty".data
      "corrupted backup file: zip file is empty".data = true := by
  have hz : validateZipFile env zipPath = some "zip file is empty" := by
    unfold validateZipFile
    rw [hopen]
    rfl
  refine ⟨?_, rfl, by decide⟩
  simp only [contentZipLoop, hlive, hz]
  rfl

/-- C7 witness at a concrete environment whose archives are all empty. -/
theorem empty_zip_error_and_corrupt_increment_witness :
    containsSubstr "empty".data
      "corrupted backup file: zip file is empty".data = true :=
  (empty_zip_error_and_corrupt_increment envA none "b.zip" [] accA rfl rfl).2.2

/-- C8: the age validator emits its Info issue exactly when the set is
nonzero-dated and younger than one hour, its Warning issue exactly when the
set is nonzero-dated and older than 90 days, and nothing at all for a
zero-valued modification time. -/
theorem age_issue_characterisation (env : Env) (setInfo : BackupSetInfo) :
    ((validateBackupAge env setInfo).any
        (fun i => i.suggestion == "backup might still be in progress") =
      (decide (setInfo.modTime ≠ 0) &&
        decide (env.now - setInfo.modTime < nsPerHour))) ∧
    ((validateBackupAge env setInfo).any
        (fun i => i.suggestion == "consider creating more recent backups") =
      (decide (setInfo.modTime ≠ 0) &&
        decide (env.now - setInfo.modTime > ns90Days))) ∧
    (setInfo.modTime = 0 → validateBackupAge env setInfo = []) := by
  unfold validateBackupAge
  by_cases h0 : setInfo.modTime = 0
  · simp [h0]
  · by_cases h1 : env.now - setInfo.modTime < nsPerHour <;>
      by_cases h2 : env.now - setInfo.modTime > ns90Days <;>
        simp +decide [h0, h1, h2, newValidationIssue]

/-- C8 witness: a zero-valued modification time yields no age issue. -/
theorem age_issue_characterisation_witness :
    validateBackupAge envA setInfoEmpty = [] :=
  (age_issue_characterisation envA setInfoEmpty).2.2 rfl

/-- C10: at every return point of the content validator (including the
early cancellation returns), the partial stats satisfy
`ValidatedFiles = CorruptFiles + ContentChecks`. -/
theorem content_stats_invariant (env : Env) (cancelAt : Option Nat)
    (setInfo : BackupSetInfo) :
    (validateBackupContent env cancelAt setInfo).2.validatedFiles =
      (validateBackupContent env cancelAt setInfo).2.corruptFiles +
        (validateBackupContent env cancelAt setInfo).2.contentChecks := by
  simp only [validateBackupContent]
  have hz := contentZipLoop_stats_inv env cancelAt setInfo.backupFiles
    { issues := [], stats := zeroStats, counter := 0, early := false }
    (by show (0 : Int) = 0 + 0; omega)
  split
  · exact hz
  · exact contentCatalogLoop_stats_inv env cancelAt setInfo.catalogFiles _ hz

/-- C6 (amended): the catalog-directory and catalog-file-list checks are an
`if`/`else if` pair, so their issues never fire together (the list check is
skipped when the directory is absent), while the remaining three checks
fire independently, exactly when their own conditions hold. -/
theorem structural_checks_characterisation (env : Env) (setInfo : BackupSetInfo) :
    ((validateBackupStructure env setInfo).any
        (fun i => i.suggestion == "backup set should contain a Catalogs folder with .wbcat files") =
      !env.dirExistsF (pathJoin setInfo.path "Catalogs")) ∧
    ((validateBackupStructure env setInfo).any
        (fun i => i.suggestion == "ensure the backup completed successfully and catalog files exist") =
      (env.dirExistsF (pathJoin setInfo.path "Catalogs") &&
        decide (setInfo.catalogFiles.length = 0))) ∧
    ((validateBackupStructure env setInfo).any
        (fun i => i.suggestion == "backup set should contain .zip files with the actual backup data") =
      decide (setInfo.backupFiles.length = 0)) ∧
    ((validateBackupStructure env setInfo).any
        (fun i => i.suggestion == "typical backup sets should contain multiple files (catalogs + backup files)") =
      decide (setInfo.fileCount < 2)) ∧
    ((validateBackupStructure env setInfo).any
        (fun i => i.suggestion == "backup might be incomplete or corrupted") =
      decide (setInfo.size < 1024)) ∧
    ¬((validateBackupStructure env setInfo).any
        (fun i => i.suggestion == "backup set should contain a Catalogs folder with .wbcat files") = true ∧
      (validateBackupStructure env setInfo).any
        (fun i => i.suggestion == "ensure the backup completed successfully and catalog files exist") = true) := by
  unfold validateBackupStructure
  cases hd : env.dirExistsF (pathJoin setInfo.path "Catalogs") <;>
    by_cases h2 : setInfo.catalogFiles.length = 0 <;>
      by_cases h3 : setInfo.backupFiles.length = 0 <;>
        by_cases h4 : setInfo.fileCount < 2 <;>
          by_cases h5 : setInfo.size < 1024 <;>
            simp +decide [hd, h2, h3, h4, h5, newValidationIssue]

/-- C6 counterexample: a descriptor satisfying all five structural failure
conditions at once produces only four issues, and the catalog-file-list
issue is absent because the catalog-directory check fired first. -/
theorem structural_checks_counterexample :
    envA.dirExistsF (pathJoin "S" "Catalogs") = false ∧
    setInfoEmpty.catalogFiles.length = 0 ∧
    setInfoEmpty.backupFiles.length = 0 ∧
    setInfoEmpty.fileCount < 2 ∧
    setInfoEmpty.size < 1024 ∧
    (validateBackupStructure envA setInfoEmpty).length = 4 ∧
    ∀ issue ∈ validateBackupStructure envA setInfoEmpty,
      issue.message ≠ "no catalog files found in Catalogs folder" := by
  decide

/-- C6 witness for the amended characterisation at a concrete input. -/
theorem structural_checks_characterisation_witness :
    (validateBackupStructure envA setInfoEmpty).any
        (fun i => i.suggestion == "backup set should contain a Catalogs folder with .wbcat files") =
      !envA.dirExistsF (pathJoin setInfoEmpty.path "Catalogs") :=
  (structural_checks_characterisation envA setInfoEmpty).1

/-- Interchange of the per-file pattern matching and the accumulator fold
in `findMissingBackupFiles`. -/
theorem foldl_extract_eq (l : List String) (acc : NumAcc) :
    l.foldl (fun acc path =>
        match extractBackupNum path with
        | some num => numAccStep acc num
        | none => acc) acc =
      (l.filterMap extractBackupNum).foldl numAccStep acc := by
  induction l generalizing acc with
  | nil => rfl
  | cons p ps ih =>
    simp only [List.foldl_cons, List.filterMap_cons]
    cases h : extractBackupNum p <;> simp [h, ih]

/-- C3 (amended): backup-data files whose extracted indices are 1, 3 and 4
produce exactly one Warning issue whose message lists precisely
"Backup files 2.zip" (with a lower-case "files", as rendered by the code)
and no other missing index. -/
theorem completeness_gap_issue (env : Env) (setInfo : BackupSetInfo)
    (h : setInfo.backupFiles.filterMap extractBackupNum = [1, 3, 4]) :
    validateBackupCompleteness env setInfo =
      [newValidationIssue env .warning
        "missing backup files in sequence: Backup files 2.zip"
        setInfo.path
        "some backup data may be incomplete or files were deleted"] ∧
    (newValidationIssue env .warning
      "missing backup files in sequence: Backup files 2.zip"
      setInfo.path
      "some backup data may be incomplete or files were deleted").severity =
        Severity.warning := by
  have hne : setInfo.backupFiles.length ≠ 0 := by
    intro hl
    rw [List.length_eq_zero] at hl
    rw [hl] at h
    simp at h
  have hfm : findMissingBackupFiles setInfo.backupFiles = ["Backup files 2.zip"] := by
    unfold findMissingBackupFiles
    rw [if_neg hne, foldl_extract_eq, h]
    decide
  refine ⟨?_, rfl⟩
  unfold validateBackupCompleteness
  rw [if_pos (by omega : setInfo.backupFiles.length > 0), hfm]
  rfl

/-- C3 witness at the concrete descriptor with files 1, 3 and 4. -/
theorem completeness_gap_issue_witness :
    validateBackupCompleteness envA setInfoGap =
      [newValidationIssue envA .warning
        "missing backup files in sequence: Backup files 2.zip"
        setInfoGap.path
        "some backup data may be incomplete or files were deleted"] :=
  (completeness_gap_issue envA setInfoGap (by decide)).1

/-- C3 counterexample: on the canonical files 1, 3 and 4 the single Warning
issue's message does not contain the claimed string "Backup Files 2.zip"
(the code renders "Backup files 2.zip" instead). -/
theorem completeness_capitalisation_counterexample :
    (validateBackupCompleteness envA setInfoGap).length = 1 ∧
    ∀ issue ∈ validateBackupCompleteness envA setInfoGap,
      issue.severity = Severity.warning ∧
      containsSubstr "Backup Files 2.zip".data issue.message.data = false ∧
      containsSubstr "Backup files 2.zip".data issue.message.data = true := by
  decide

/-- C4: the possible outputs of the worker pool with worker count 0 are
exactly those with worker count 1 (the pool normalises a non-positive
count to 1 before starting), and for any fixed schedule the produced
report array is identical. -/
theorem worker0_equals_worker1 (env : Env) (sch : Schedule)
    (sets : List BackupSetInfo) :
    (∀ out : List BackupReport,
      validateBackupSetsOutcome env sets 0 out ↔
        validateBackupSetsOutcome env sets 1 out) ∧
    validateBackupSets env sch sets 0 = validateBackupSets env sch sets 1 := by
  refine ⟨fun out => ?_, rfl⟩
  unfold validateBackupSetsOutcome
  norm_num

/-- Deterministic no-cancellation run: every slot of the result array holds
the validation of its own descriptor, in input order. -/
theorem poolOutcome_full_run (env : Env) (sets : List BackupSetInfo) :
    poolOutcome env sets (fullSchedule sets.length) =
      sets.map (validateFileBackupSet env none) := by
  unfold poolOutcome fullSchedule
  apply List.ext_getElem
  · simp
  · intro i h1 h2
    simp only [List.length_map] at h2
    simp [h2, List.getElem?_eq_getElem h2]

/-- Unconsumed slots keep the zero-valued report (context for the
cancellation behaviour of the scheduler). -/
theorem poolOutcome_unfinished_slots_zero (env : Env)
    (sets : List BackupSetInfo) (sch : Schedule) (i : Nat)
    (h1 : i < sets.length) (h2 : sch.completed ≤ i) :
    (poolOutcome env sets sch).getD i zeroReport = zeroReport := by
  unfold poolOutcome
  rw [List.getD_eq_getElem _ _ (by simpa using h1)]
  simp [Nat.not_lt.mpr h2]

/-- C5 (amended): discovery sorts the candidates by descending modification
time, and when at most 12 candidates are discovered (the insertion-sort
branch of `sort.Slice`) ties keep their discovery order; with more
candidates `sort.Slice` gives no stability guarantee and can reorder
ties. -/
theorem discovery_sorted_stable_small (env : Env) (root : String)
    (cands : List BackupSetInfo)
    (hd : discoverCandidates env root = .ok cands)
    (hlen : cands.length ≤ 12) :
    discoverBackupSets env root = .ok (insertionSortGo lessBackupSet cands) ∧
    (insertionSortGo lessBackupSet cands).Pairwise
      (fun x y => y.modTime ≤ x.modTime) ∧
    ∀ t : Int,
      (insertionSortGo lessBackupSet cands).filter (fun s => s.modTime == t) =
        cands.filter (fun s => s.modTime == t) := by
  refine ⟨?_, ?_, ?_⟩
  · unfold discoverBackupSets
    rw [hd]
    show Except.ok (sortSliceGo lessBackupSet cands) = _
    rw [sortSliceGo_small lessBackupSet cands hlen]
  · exact insertionSortGo_sorted (fun s : BackupSetInfo => s.modTime) cands
  · intro t
    exact insertionSortGo_stable (fun s : BackupSetInfo => s.modTime) t cands

/-- C5 witness: a two-candidate discovery, sorted newest first with the
stability property. -/
theorem discovery_sorted_stable_small_witness :
    discoverBackupSets envDisc2 "R" =
      .ok (insertionSortGo lessBackupSet candsDisc2) ∧
    (insertionSortGo lessBackupSet candsDisc2).Pairwise
      (fun x y => y.modTime ≤ x.modTime) ∧
    (insertionSortGo lessBackupSet candsDisc2).filter (fun s => s.modTime == 5) =
      candsDisc2.filter (fun s => s.modTime == 5) :=
  ⟨(discovery_sorted_stable_small envDisc2 "R" candsDisc2 rfl (by decide)).1,
   (discovery_sorted_stable_small envDisc2 "R" candsDisc2 rfl (by decide)).2.1,
   (discovery_sorted_stable_small envDisc2 "R" candsDisc2 rfl (by decide)).2.2 5⟩

/-- C5 counterexample: with thirteen candidates the pdqsort used by
`sort.Slice` reorders the two sets whose modification time is 7, so the
claimed stability (ties keep discovery order) fails. -/
theorem discovery_not_stable_counterexample :
    discoverCandidates envDisc13 "R" = .ok candsDisc13 ∧
    discoverBackupSets envDisc13 "R" = .ok outDisc13 ∧
    ¬(outDisc13.Pairwise (fun x y => y.modTime ≤ x.modTime) ∧
      ∀ t : Int,
        outDisc13.filter (fun s => s.modTime == t) =
          candsDisc13.filter (fun s => s.modTime == t)) := by
  refine ⟨rfl, rfl, ?_⟩
  rintro ⟨-, hstab⟩
  exact absurd (hstab 7) (by decide)

end WinBackupChecker
